import Mathlib

/-!
Formal model of the Drawing-Board shared-state engine: the undo/redo history
store (src/hooks/useDrawingState.ts), the broadcast sync hooks
(src/hooks/useCanvasSync.ts and the controller/display variant), the display
page resync loop (src/app/display/page.tsx) and the persistence gateway
(src/hooks/usePersistence.ts).  TypeScript arrays become lists, TS `number`
becomes `Int` where a value is only stored and compared, and optional record
fields become `Option`.
-/

namespace DrawingBoard

/-- Tool kinds from src/lib/types.ts (the `Tool` union). -/
inductive Tool
  | brush | pencil | eraser | rectangle | circle | arrow | line | text | image | select
deriving DecidableEq

/-- Kind-specific geometry and styling of a shape (src/lib/types.ts).
TS numeric fields are modelled as `Int`; optional fields as `Option`. -/
inductive ShapeData
  | freeDraw (points : List Int) (stroke : String) (strokeWidth : Int)
      (tension : Option Int) (globalCompositeOperation : Option String)
  | rectangle (width height : Int) (fill stroke : Option String)
      (strokeWidth cornerRadius : Option Int)
  | circle (radiusX radiusY : Int) (fill stroke : Option String)
      (strokeWidth : Option Int)
  | arrow (points : List Int) (stroke : String) (strokeWidth : Int)
      (fill : Option String) (pointerLength pointerWidth : Option Int)
  | line (points : List Int) (stroke : String) (strokeWidth : Int)
  | text (text : String) (fontSize : Int) (fontFamily : String) (fill : String)
  | image (src : String) (width height : Int)
deriving DecidableEq

/-- A drawable shape (src/lib/types.ts `Shape`): common `BaseShape` fields plus
the kind-specific payload.  Identity is the `id` string. -/
structure Shape where
  id : String
  type : Tool
  x : Int
  y : Int
  rotation : Option Int
  scaleX : Option Int
  scaleY : Option Int
  opacity : Option Int
  draggable : Option Bool
  data : ShapeData
deriving DecidableEq

/-- Undo/redo state (src/lib/types.ts `HistoryState`). -/
structure HistoryState where
  past : List (List Shape)
  present : List Shape
  future : List (List Shape)
deriving DecidableEq

/-- src/hooks/useDrawingState.ts line 6. -/
def MAX_HISTORY : Nat := 50

/-- JS `arr.slice(-n)` (for n greater than 0): the last `n` elements of the
array, or the whole array when it is shorter than `n`. -/
def sliceLast (n : Nat) (l : List α) : List α := l.drop (l.length - n)

/-- `pushToHistory` from useDrawingState.ts.  The mutable `skipHistoryRef`
(set by `setShapes` with `addToHistory = false` immediately before this call
and reset here) is modelled as the explicit `skipHistory` argument, since the
flag is set and consumed within one synchronous mutation. -/
def pushToHistory (skipHistory : Bool) (h : HistoryState) (newShapes : List Shape) :
    HistoryState :=
  if skipHistory then
    { h with present := newShapes }
  else
    { past := sliceLast MAX_HISTORY (h.past ++ [h.present])
      present := newShapes
      future := [] }

/-- `addShape` from useDrawingState.ts. -/
def addShape (h : HistoryState) (shape : Shape) : HistoryState :=
  pushToHistory false h (h.present ++ [shape])

/-- `updateShape` from useDrawingState.ts. -/
def updateShape (h : HistoryState) (updatedShape : Shape) : HistoryState :=
  pushToHistory false h
    (h.present.map fun s => if s.id == updatedShape.id then updatedShape else s)

/-- `deleteShape` from useDrawingState.ts (the `selectedId` bookkeeping is not
part of the modelled state). -/
def deleteShape (h : HistoryState) (shapeId : String) : HistoryState :=
  pushToHistory false h (h.present.filter fun s => s.id != shapeId)

/-- `clearAll` from useDrawingState.ts. -/
def clearAll (h : HistoryState) : HistoryState :=
  pushToHistory false h []

/-- `setShapes` from useDrawingState.ts: `addToHistory = false` routes through
the skip branch of `pushToHistory`. -/
def setShapes (h : HistoryState) (newShapes : List Shape) (addToHistory : Bool) :
    HistoryState :=
  pushToHistory (!addToHistory) h newShapes

/-- `undo` from useDrawingState.ts: no-op on empty past, else pop the last
past entry into present and prepend the old present onto future. -/
def undo (h : HistoryState) : HistoryState :=
  match h.past.getLast? with
  | none => h
  | some previous =>
      { past := h.past.dropLast, present := previous, future := h.present :: h.future }

/-- `redo` from useDrawingState.ts: no-op on empty future, else shift the
first future entry into present and push the old present onto past. -/
def redo (h : HistoryState) : HistoryState :=
  match h.future with
  | [] => h
  | next :: rest =>
      { past := h.past ++ [h.present], present := next, future := rest }

/-- `canUndo` from useDrawingState.ts line 101. -/
def canUndo (h : HistoryState) : Bool := decide (h.past.length > 0)

/-- `canRedo` from useDrawingState.ts line 102. -/
def canRedo (h : HistoryState) : Bool := decide (h.future.length > 0)

/-- Swap the array elements at positions `i` and `i + 1` (the destructuring
swap used by `bringForward` and `sendBackward`). -/
def swapNext (l : List Shape) (i : Nat) : List Shape :=
  match l.get? i, l.get? (i + 1) with
  | some a, some b => (l.set i b).set (i + 1) a
  | _, _ => l

/-- `bringForward` from useDrawingState.ts: early-returns when nothing is
selected, the id is absent, or the shape is already last. -/
def bringForward (h : HistoryState) (selectedId : Option String) : HistoryState :=
  match selectedId with
  | none => h
  | some sid =>
      match h.present.findIdx? (fun s => s.id == sid) with
      | none => h
      | some index =>
          if index = h.present.length - 1 then h
          else pushToHistory false h (swapNext h.present index)

/-- `sendBackward` from useDrawingState.ts: early-returns when nothing is
selected, the id is absent, or the shape is already first. -/
def sendBackward (h : HistoryState) (selectedId : Option String) : HistoryState :=
  match selectedId with
  | none => h
  | some sid =>
      match h.present.findIdx? (fun s => s.id == sid) with
      | none => h
      | some index =>
          if index = 0 then h
          else pushToHistory false h (swapNext h.present (index - 1))

/-- `bringToFront` from useDrawingState.ts. -/
def bringToFront (h : HistoryState) (selectedId : Option String) : HistoryState :=
  match selectedId with
  | none => h
  | some sid =>
      match h.present.find? (fun s => s.id == sid) with
      | none => h
      | some shape =>
          pushToHistory false h ((h.present.filter fun s => s.id != sid) ++ [shape])

/-- `sendToBack` from useDrawingState.ts. -/
def sendToBack (h : HistoryState) (selectedId : Option String) : HistoryState :=
  match selectedId with
  | none => h
  | some sid =>
      match h.present.find? (fun s => s.id == sid) with
      | none => h
      | some shape =>
          pushToHistory false h (shape :: h.present.filter fun s => s.id != sid)

/-- `syncAddShape` from useDrawingState.ts: mutates present only. -/
def syncAddShape (h : HistoryState) (shape : Shape) : HistoryState :=
  { h with present := h.present ++ [shape] }

/-- `syncUpdateShape` from useDrawingState.ts: mutates present only. -/
def syncUpdateShape (h : HistoryState) (updatedShape : Shape) : HistoryState :=
  { h with present :=
      h.present.map fun s => if s.id == updatedShape.id then updatedShape else s }

/-- `syncDeleteShape` from useDrawingState.ts: mutates present only. -/
def syncDeleteShape (h : HistoryState) (shapeId : String) : HistoryState :=
  { h with present := h.present.filter fun s => s.id != shapeId }

/-- `syncClear` from useDrawingState.ts: mutates present only. -/
def syncClear (h : HistoryState) : HistoryState :=
  { h with present := [] }

/-- `syncFullSync` from useDrawingState.ts: mutates present only. -/
def syncFullSync (h : HistoryState) (newShapes : List Shape) : HistoryState :=
  { h with present := newShapes }

/-- One call to a controller-side mutator of useDrawingState.ts, with its
arguments (the selection, read by the reorder ops, is passed explicitly). -/
inductive Mutation
  | add (s : Shape)
  | update (s : Shape)
  | delete (shapeId : String)
  | clear
  | setScene (l : List Shape) (addToHistory : Bool)
  | bringForward (selectedId : Option String)
  | sendBackward (selectedId : Option String)
  | bringToFront (selectedId : Option String)
  | sendToBack (selectedId : Option String)
deriving DecidableEq

/-- Dispatch a mutation to the corresponding useDrawingState.ts mutator. -/
def applyMutation (h : HistoryState) : Mutation → HistoryState
  | .add s => addShape h s
  | .update s => updateShape h s
  | .delete i => deleteShape h i
  | .clear => clearAll h
  | .setScene l b => setShapes h l b
  | .bringForward sid => bringForward h sid
  | .sendBackward sid => sendBackward h sid
  | .bringToFront sid => bringToFront h sid
  | .sendToBack sid => sendToBack h sid

/-- Whether applying `m` to `h` reaches the history-recording branch of
`pushToHistory`: true for add, update, delete and clear, governed by the
`addToHistory` flag for setShapes, and false for a reorder exactly when it
early-returns (no selection, absent id, or already at the boundary). -/
def recordsHistory (h : HistoryState) : Mutation → Bool
  | .add _ => true
  | .update _ => true
  | .delete _ => true
  | .clear => true
  | .setScene _ b => b
  | .bringForward sid =>
      match sid with
      | none => false
      | some s =>
          match h.present.findIdx? (fun x => x.id == s) with
          | none => false
          | some i => decide (i ≠ h.present.length - 1)
  | .sendBackward sid =>
      match sid with
      | none => false
      | some s =>
          match h.present.findIdx? (fun x => x.id == s) with
          | none => false
          | some i => decide (i ≠ 0)
  | .bringToFront sid =>
      match sid with
      | none => false
      | some s => (h.present.find? (fun x => x.id == s)).isSome
  | .sendToBack sid =>
      match sid with
      | none => false
      | some s => (h.present.find? (fun x => x.id == s)).isSome

/-- Apply a list of mutations in order. -/
def applyMutations (h : HistoryState) : List Mutation → HistoryState
  | [] => h
  | m :: ms => applyMutations (applyMutation h m) ms

/-- Every mutation in the list records history on the state it is applied to. -/
def recordsAll (h : HistoryState) : List Mutation → Bool
  | [] => true
  | m :: ms => recordsHistory h m && recordsAll (applyMutation h m) ms

/-- The present scenes observed just before each mutation in the list. -/
def presentsAlong (h : HistoryState) : List Mutation → List (List Shape)
  | [] => []
  | m :: ms => h.present :: presentsAlong (applyMutation h m) ms

/-- n-fold iteration of `undo`. -/
def undoN : Nat → HistoryState → HistoryState
  | 0, h => h
  | n + 1, h => undo (undoN n h)

/-- Message kinds of the sync protocol (src/lib/types.ts `CanvasSyncMessage`,
plus the undo/redo kinds used by the peer-to-peer variant of useCanvasSync). -/
inductive SyncMsgType
  | add_shape | update_shape | delete_shape | clear | full_sync | request_sync
  | undoMsg | redoMsg
deriving DecidableEq

/-- The payload slot of a sync message: a shape, a scene, a shape id, or null. -/
inductive SyncPayload
  | shape (s : Shape)
  | shapes (l : List Shape)
  | shapeId (i : String)
  | null
deriving DecidableEq

/-- The `CanvasSyncMessage` envelope (src/lib/types.ts): kind, payload,
session id and advisory millisecond timestamp. -/
structure CanvasSyncMessage where
  type : SyncMsgType
  payload : SyncPayload
  sessionId : String
  timestamp : Nat
deriving DecidableEq

/-- An observable effect of the controller/display message handler in
useCanvasSync (the part_000 variant): either one of the injected callbacks is
invoked with the raw payload (the TS code casts without checking), or a send
is scheduled on a timer with the given delay in milliseconds. -/
inductive HandlerEffect
  | onShapeAdded (p : SyncPayload)
  | onShapeUpdated (p : SyncPayload)
  | onShapeDeleted (p : SyncPayload)
  | onClear
  | onFullSync (p : SyncPayload)
  | scheduledSend (delayMs : Nat) (msg : CanvasSyncMessage)
deriving DecidableEq

/-- The broadcast-event handler of the controller/display useCanvasSync
variant.  `currentShapesRef` is the ref mirroring the live scene, `now` the
clock value read when the scheduled send fires.  In the request_sync case the
TS guard is `isController and currentShapesRef.current`; the ref always holds
an array (never null), so the guard reduces to `isController`. -/
def handleIncoming (isController : Bool) (currentShapesRef : List Shape)
    (sessionId : String) (now : Nat) (msg : CanvasSyncMessage) :
    List HandlerEffect :=
  match msg.type with
  | .add_shape => [.onShapeAdded msg.payload]
  | .update_shape => [.onShapeUpdated msg.payload]
  | .delete_shape => [.onShapeDeleted msg.payload]
  | .clear => [.onClear]
  | .full_sync => [.onFullSync msg.payload]
  | .request_sync =>
      if isController then
        [.scheduledSend 10 ⟨.full_sync, .shapes currentShapesRef, sessionId, now⟩]
      else []
  | .undoMsg => []
  | .redoMsg => []

/-- The `broadcast` helper shared by both useCanvasSync variants: when the
channel ref is still null nothing is sent (and no error is raised); otherwise
exactly one enveloped message is handed to the transport.  The returned list
is the sequence of messages handed to the channel. -/
def broadcast (channelExists : Bool) (sessionId : String) (now : Nat)
    (type : SyncMsgType) (payload : SyncPayload) : List CanvasSyncMessage :=
  if channelExists then [⟨type, payload, sessionId, now⟩] else []

/-- `broadcastAddShape`. -/
def broadcastAddShape (ch : Bool) (sid : String) (now : Nat) (s : Shape) :
    List CanvasSyncMessage :=
  broadcast ch sid now .add_shape (.shape s)

/-- `broadcastUpdateShape`. -/
def broadcastUpdateShape (ch : Bool) (sid : String) (now : Nat) (s : Shape) :
    List CanvasSyncMessage :=
  broadcast ch sid now .update_shape (.shape s)

/-- `broadcastDeleteShape`. -/
def broadcastDeleteShape (ch : Bool) (sid : String) (now : Nat) (shapeId : String) :
    List CanvasSyncMessage :=
  broadcast ch sid now .delete_shape (.shapeId shapeId)

/-- `broadcastClear`. -/
def broadcastClear (ch : Bool) (sid : String) (now : Nat) :
    List CanvasSyncMessage :=
  broadcast ch sid now .clear .null

/-- `broadcastFullSync`. -/
def broadcastFullSync (ch : Bool) (sid : String) (now : Nat) (shapes : List Shape) :
    List CanvasSyncMessage :=
  broadcast ch sid now .full_sync (.shapes shapes)

/-- `requestSync` (controller/display useCanvasSync variant). -/
def requestSync (ch : Bool) (sid : String) (now : Nat) : List CanvasSyncMessage :=
  broadcast ch sid now .request_sync .null

/-- The 10-second resync period of the display page. -/
def RESYNC_INTERVAL_MS : Nat := 10000

/-- Body of the periodic resync interval in DisplayPageContent
(src/app/display/page.tsx lines 95 to 103): on each tick, request a sync only
when the client currently observes itself as connected. -/
def resyncTick (isConnected : Bool) (channelExists : Bool) (sid : String)
    (now : Nat) : List CanvasSyncMessage :=
  if isConnected then requestSync channelExists sid now else []

/-- The serialized form of a scene as compared by usePersistence.ts.
`JSON.stringify` on this fixed record schema is deterministic and injective,
so a serialized scene is represented by the scene itself; `none` stands for
the initial empty-string value of `lastSavedRef`, which is not the
serialization of any scene. -/
def jsonStringify (shapes : List Shape) : Option (List Shape) := some shapes

/-- The refs of usePersistence.ts relevant to saving: the last-saved
serialization and the current drawing record id. -/
structure PersistRefs where
  lastSaved : Option (List Shape)
  currentDrawingId : Option String
deriving DecidableEq

/-- A durable write issued to the drawings table by `saveDrawing`: either an
update of one record (new canvas_data, refreshed updated_at, and the new name
when one was supplied) or an insert of a new record. -/
inductive DurableWrite
  | update (id : String) (canvasData : List Shape) (updatedAt : Nat)
      (rename : Option String)
  | insert (name : String) (canvasData : List Shape)
deriving DecidableEq

/-- The outcome of one `saveDrawing` call: the returned id (null on failure),
the durable writes performed, and the updated refs. -/
structure SaveOutcome where
  result : Option String
  writes : List DurableWrite
  lastSaved : Option (List Shape)
  currentDrawingId : Option String
deriving DecidableEq

/-- `saveDrawing` from usePersistence.ts on the happy path (the durable-store
calls succeed).  `name = none` models a missing or empty name (the TS code
tests truthiness).  `freshId` stands for the id the store generates for an
insert, `now` for the new Date() timestamp written to updated_at, and
`defaultName` for the human-readable timestamp name used when creating a
record with no name given.  The skip check compares the serialization of the
argument scene with `lastSaved` and, when an id was passed and they are
identical, returns the id without any write. -/
def saveDrawing (st : PersistRefs) (shapes : List Shape) (name : Option String)
    (id : Option String) (freshId : String) (now : Nat) (defaultName : String) :
    SaveOutcome :=
  let canvasData := jsonStringify shapes
  match id with
  | some i =>
      if canvasData = st.lastSaved then
        ⟨some i, [], st.lastSaved, st.currentDrawingId⟩
      else
        ⟨some i, [.update i shapes now name], canvasData, st.currentDrawingId⟩
  | none =>
      ⟨some freshId, [.insert (name.getD defaultName) shapes], canvasData,
        some freshId⟩

/-- A concrete shape used by witnesses and counterexamples. -/
def sampleShape (i : String) : Shape :=
  ⟨i, Tool.rectangle, 0, 0, none, none, none, none, none,
    ShapeData.rectangle 10 10 none none none none⟩

/-- The initial history state of useDrawingState with no initial shapes. -/
def hist0 : HistoryState := ⟨[], [], []⟩

/-- Sixty always-recording mutations, used as a witness input. -/
def sixtyMutations : List Mutation :=
  (List.range 60).map fun i => Mutation.add (sampleShape (toString i))

/-- A history state with a non-empty future, used by witness inputs. -/
def histWithFuture : HistoryState := ⟨[], [], [[sampleShape "a"]]⟩

/-- A one-shape scene, used by witness inputs. -/
def histOneShape : HistoryState := ⟨[], [sampleShape "a"], []⟩

/-- Taking the last `n` elements of `l ++ [a]` (for positive `n`) keeps `a`
last and drops from the front of `l`. -/
theorem sliceLast_concat (n : Nat) (hn : 1 ≤ n) (l : List α) (a : α) :
    sliceLast n (l ++ [a]) = l.drop (l.length + 1 - n) ++ [a] := by
  unfold sliceLast
  rw [List.length_append, List.length_singleton,
    List.drop_append_of_le_length (by omega)]

/-- `undo` on a state whose past ends in `q` pops `q` into present. -/
theorem undo_concat (p : List (List Shape)) (q c : List Shape)
    (f : List (List Shape)) :
    undo ⟨p ++ [q], c, f⟩ = ⟨p, q, c :: f⟩ := by
  simp [undo, List.getLast?_concat]

/-- `undo` is a no-op on an empty past. -/
theorem undo_empty_past (h : HistoryState) (hp : h.past = []) : undo h = h := by
  simp [undo, hp]

/-- The non-skipping branch of `pushToHistory`, spelled out. -/
theorem pushToHistory_false (h : HistoryState) (ns : List Shape) :
    pushToHistory false h ns =
      ⟨sliceLast MAX_HISTORY (h.past ++ [h.present]), ns, []⟩ := by
  simp [pushToHistory]

/-- A mutation that records history replaces past by the last MAX_HISTORY
entries of past ++ [present] and clears future, whatever new present it
computes. -/
theorem applyMutation_records (h : HistoryState) (m : Mutation)
    (hr : recordsHistory h m = true) :
    (applyMutation h m).past = sliceLast MAX_HISTORY (h.past ++ [h.present]) ∧
    (applyMutation h m).future = [] := by
  cases m with
  | add s => simp [applyMutation, addShape, pushToHistory]
  | update s => simp [applyMutation, updateShape, pushToHistory]
  | delete i => simp [applyMutation, deleteShape, pushToHistory]
  | clear => simp [applyMutation, clearAll, pushToHistory]
  | setScene l b =>
      simp only [recordsHistory] at hr
      subst hr
      simp [applyMutation, setShapes, pushToHistory]
  | bringForward sid =>
      cases sid with
      | none => simp [recordsHistory] at hr
      | some s =>
          simp only [recordsHistory] at hr
          simp only [applyMutation, bringForward]
          cases hidx : h.present.findIdx? (fun x => x.id == s) with
          | none => rw [hidx] at hr; simp at hr
          | some i =>
              rw [hidx] at hr
              simp only [decide_eq_true_eq] at hr
              simp [hr, pushToHistory_false]
  | sendBackward sid =>
      cases sid with
      | none => simp [recordsHistory] at hr
      | some s =>
          simp only [recordsHistory] at hr
          simp only [applyMutation, sendBackward]
          cases hidx : h.present.findIdx? (fun x => x.id == s) with
          | none => rw [hidx] at hr; simp at hr
          | some i =>
              rw [hidx] at hr
              simp only [decide_eq_true_eq] at hr
              simp [hr, pushToHistory_false]
  | bringToFront sid =>
      cases sid with
      | none => simp [recordsHistory] at hr
      | some s =>
          simp only [recordsHistory] at hr
          simp only [applyMutation, bringToFront]
          cases hf : h.present.find? (fun x => x.id == s) with
          | none => rw [hf] at hr; simp at hr
          | some shape =>
              simp [pushToHistory_false]
  | sendToBack sid =>
      cases sid with
      | none => simp [recordsHistory] at hr
      | some s =>
          simp only [recordsHistory] at hr
          simp only [applyMutation, sendToBack]
          cases hf : h.present.find? (fun x => x.id == s) with
          | none => rw [hf] at hr; simp at hr
          | some shape =>
              simp [pushToHistory_false]

/-- Re-slicing after appending more entries ignores the earlier slicing. -/
theorem sliceLast_append_left (n : Nat) (l P : List α) :
    sliceLast n (sliceLast n l ++ P) = sliceLast n (l ++ P) := by
  by_cases hl : l.length ≤ n
  · have h0 : l.length - n = 0 := by omega
    simp [sliceLast, h0]
  · push_neg at hl
    simp only [sliceLast, List.length_append, List.length_drop]
    have h1 : l.length - (l.length - n) = n := by omega
    have h2 : n + P.length - n = P.length := by omega
    have h3 : l.length + P.length - n = (l.length - n) + P.length := by omega
    rw [h1, h2, h3, ← List.drop_drop]
    conv_rhs => rw [List.drop_append_of_le_length (by omega)]

/-- The length of a last-n slice. -/
theorem sliceLast_length (n : Nat) (l : List α) :
    (sliceLast n l).length = min n l.length := by
  simp [sliceLast]
  omega

/-- C1: each sync-receiving entry point (syncAddShape, syncUpdateShape,
syncDeleteShape, syncClear, syncFullSync) leaves the past and future stacks
exactly as they were, and hence preserves the canUndo and canRedo flags. -/
theorem sync_entry_points_preserve_history (h : HistoryState) (s u : Shape)
    (sid : String) (scene : List Shape) :
    ((syncAddShape h s).past = h.past ∧ (syncAddShape h s).future = h.future ∧
      canUndo (syncAddShape h s) = canUndo h ∧ canRedo (syncAddShape h s) = canRedo h) ∧
    ((syncUpdateShape h u).past = h.past ∧ (syncUpdateShape h u).future = h.future ∧
      canUndo (syncUpdateShape h u) = canUndo h ∧ canRedo (syncUpdateShape h u) = canRedo h) ∧
    ((syncDeleteShape h sid).past = h.past ∧ (syncDeleteShape h sid).future = h.future ∧
      canUndo (syncDeleteShape h sid) = canUndo h ∧ canRedo (syncDeleteShape h sid) = canRedo h) ∧
    ((syncClear h).past = h.past ∧ (syncClear h).future = h.future ∧
      canUndo (syncClear h) = canUndo h ∧ canRedo (syncClear h) = canRedo h) ∧
    ((syncFullSync h scene).past = h.past ∧ (syncFullSync h scene).future = h.future ∧
      canUndo (syncFullSync h scene) = canUndo h ∧ canRedo (syncFullSync h scene) = canRedo h) :=
  ⟨⟨rfl, rfl, rfl, rfl⟩, ⟨rfl, rfl, rfl, rfl⟩, ⟨rfl, rfl, rfl, rfl⟩,
    ⟨rfl, rfl, rfl, rfl⟩, ⟨rfl, rfl, rfl, rfl⟩⟩

/-- The state produced by `addShape`, written out explicitly. -/
theorem addShape_eq (h : HistoryState) (x : Shape) :
    addShape h x =
      ⟨h.past.drop (h.past.length + 1 - MAX_HISTORY) ++ [h.present],
        h.present ++ [x], []⟩ := by
  simp only [addShape, pushToHistory, if_neg (Bool.false_ne_true)]
  rw [sliceLast_concat MAX_HISTORY (by decide) h.past h.present]

/-- C2: from any history state with present scene S, addShape x followed by
undo restores present to exactly S, and a subsequent redo restores present to
S with x appended. -/
theorem add_then_undo_then_redo (h : HistoryState) (x : Shape) :
    (undo (addShape h x)).present = h.present ∧
    (redo (undo (addShape h x))).present = h.present ++ [x] := by
  rw [addShape_eq, undo_concat]
  exact ⟨rfl, rfl⟩

/-- `presentsAlong` records one scene per mutation. -/
theorem presentsAlong_length (ms : List Mutation) :
    ∀ h : HistoryState, (presentsAlong h ms).length = ms.length := by
  induction ms with
  | nil => intro h; rfl
  | cons m ms ih => intro h; simp [presentsAlong, ih]

/-- The k-th recorded scene is the present after the first k mutations. -/
theorem presentsAlong_getElem (ms : List Mutation) :
    ∀ (h : HistoryState) (k : Nat), k < ms.length →
      (presentsAlong h ms)[k]? = some (applyMutations h (ms.take k)).present := by
  induction ms with
  | nil => intro h k hk; simp at hk
  | cons m ms ih =>
      intro h k hk
      cases k with
      | zero => simp [presentsAlong, applyMutations]
      | succ k =>
          simp only [presentsAlong, List.getElem?_cons_succ, List.take_succ_cons]
          exact ih (applyMutation h m) k (by simpa using hk)

/-- Applying a list of always-recording mutations from a state whose past is
within the bound: the final past is the last MAX_HISTORY of the old past
followed by the recorded scenes, and (for a non-empty list) future is empty. -/
theorem applyMutations_past_future (ms : List Mutation) :
    ∀ h : HistoryState, h.past.length ≤ MAX_HISTORY → recordsAll h ms = true →
      (applyMutations h ms).past =
        sliceLast MAX_HISTORY (h.past ++ presentsAlong h ms) ∧
      (ms = [] ∨ (applyMutations h ms).future = []) := by
  induction ms with
  | nil =>
      intro h hlen _
      refine ⟨?_, Or.inl rfl⟩
      have h0 : h.past.length - MAX_HISTORY = 0 := by omega
      simp [applyMutations, presentsAlong, sliceLast, h0]
  | cons m ms ih =>
      intro h hlen hrec
      simp only [recordsAll, Bool.and_eq_true] at hrec
      obtain ⟨hr1, hr2⟩ := hrec
      have hstep := applyMutation_records h m hr1
      have hlen2 : (applyMutation h m).past.length ≤ MAX_HISTORY := by
        rw [hstep.1, sliceLast_length]
        omega
      have hrest := ih (applyMutation h m) hlen2 hr2
      constructor
      · show (applyMutations (applyMutation h m) ms).past = _
        rw [hrest.1, hstep.1, sliceLast_append_left]
        congr 1
        simp [presentsAlong]
      · right
        rcases hrest.2 with hnil | hfut
        · subst hnil
          exact hstep.2
        · exact hfut

/-- Iterated undo pops a full suffix of the past, entry by entry, moving the
intervening presents onto the future. -/
theorem undoN_pops_suffix (l : List (List Shape)) :
    ∀ (p : List (List Shape)) (c : List Shape) (f : List (List Shape)),
      undoN l.length ⟨p ++ l, c, f⟩ =
        if l = [] then ⟨p ++ l, c, f⟩ else ⟨p, l.headD c, l.tail ++ c :: f⟩ := by
  induction l with
  | nil => intro p c f; simp [undoN]
  | cons a t ih =>
      intro p c f
      show undo (undoN t.length ⟨p ++ a :: t, c, f⟩) = _
      rw [List.append_cons, ih (p ++ [a]) c f]
      cases t with
      | nil => simpa using undo_concat p a c f
      | cons b t2 =>
          simp only [if_neg (List.cons_ne_nil b t2), List.headD_cons,
            List.tail_cons, if_neg (List.cons_ne_nil a (b :: t2))]
          rw [undo_concat]
          rfl

/-- C3: starting
from an empty history, sixty sequential history-recording mutations leave
past with exactly 50 entries; fifty chained undos then reach the present
recorded after the first ten mutations (the oldest retained snapshot, the
ten older ones having been discarded), and a further undo is a no-op. -/
theorem sixty_mutations_history_depth (h₀ : HistoryState) (ms : List Mutation)
    (hpast : h₀.past = []) (hrec : recordsAll h₀ ms = true)
    (hlen : ms.length = 60) :
    (applyMutations h₀ ms).past.length = 50 ∧
    (undoN 50 (applyMutations h₀ ms)).present =
      (applyMutations h₀ (ms.take 10)).present ∧
    undo (undoN 50 (applyMutations h₀ ms)) = undoN 50 (applyMutations h₀ ms) := by
  have hP := applyMutations_past_future ms h₀ (by rw [hpast]; simp) hrec
  have hPlen := presentsAlong_length ms h₀
  have hmsne : ms ≠ [] := by intro hc; rw [hc] at hlen; simp at hlen
  have hfut : (applyMutations h₀ ms).future = [] := by
    rcases hP.2 with hc | hf
    · exact absurd hc hmsne
    · exact hf
  have hpasteq : (applyMutations h₀ ms).past = (presentsAlong h₀ ms).drop 10 := by
    rw [hP.1, hpast, List.nil_append, sliceLast]
    rw [hPlen, hlen]
    rfl
  have hdroplen : ((presentsAlong h₀ ms).drop 10).length = 50 := by
    rw [List.length_drop, hPlen, hlen]
  refine ⟨by rw [hpasteq, hdroplen], ?_, ?_⟩
  all_goals
    have hstate : applyMutations h₀ ms =
        ⟨[] ++ (presentsAlong h₀ ms).drop 10, (applyMutations h₀ ms).present,
          []⟩ := by
      rw [List.nil_append, ← hpasteq, ← hfut]
  · rw [hstate, ← hdroplen, undoN_pops_suffix]
    have hne : (presentsAlong h₀ ms).drop 10 ≠ [] := by
      intro hc
      rw [hc] at hdroplen
      simp at hdroplen
    rw [if_neg hne]
    show ((presentsAlong h₀ ms).drop 10).headD _ = _
    have hhead : ((presentsAlong h₀ ms).drop 10).head? =
        some (applyMutations h₀ (ms.take 10)).present := by
      rw [List.head?_drop]
      exact presentsAlong_getElem ms h₀ 10 (by omega)
    rw [List.headD_eq_head?_getD, hhead]
    rfl
  · rw [hstate, ← hdroplen, undoN_pops_suffix]
    have hne : (presentsAlong h₀ ms).drop 10 ≠ [] := by
      intro hc
      rw [hc] at hdroplen
      simp at hdroplen
    rw [if_neg hne]
    exact undo_empty_past _ rfl

/-- Witness for C3: sixty addShape calls from the initial state. -/
theorem sixty_mutations_history_depth_witness :
    (hist0.past = [] ∧ recordsAll hist0 sixtyMutations = true ∧
      sixtyMutations.length = 60) ∧
    (applyMutations hist0 sixtyMutations).past.length = 50 ∧
    (undoN 50 (applyMutations hist0 sixtyMutations)).present =
      (applyMutations hist0 (sixtyMutations.take 10)).present ∧
    undo (undoN 50 (applyMutations hist0 sixtyMutations)) =
      undoN 50 (applyMutations hist0 sixtyMutations) :=
  ⟨⟨rfl, by decide, by decide⟩,
    sixty_mutations_history_depth hist0 sixtyMutations rfl (by decide) (by decide)⟩

/-- C4 counterexample: a reorder whose selected id is absent from the scene is
an early-return no-op, so with a non-empty future it does not clear the
future (contradicting the claim that every listed mutation, including a
reorder, leaves the future empty). -/
theorem reorder_noop_keeps_future :
    applyMutation histWithFuture (Mutation.bringForward (some "b")) =
      histWithFuture ∧
    histWithFuture.future ≠ [] :=
  ⟨rfl, by decide⟩

/-- C4 (amended): a mutation performed on a state with a non-empty future
leaves the future empty (so canRedo becomes false) provided it actually
records history, i.e. it is addShape, updateShape, deleteShape, clearAll or
setShapes with addToHistory true, or a reorder that does not early-return
(its selected id is present and not already at the relevant boundary). -/
theorem recording_mutation_clears_future (h : HistoryState) (m : Mutation)
    (_hfut : h.future ≠ []) (hr : recordsHistory h m = true) :
    (applyMutation h m).future = [] ∧ canRedo (applyMutation h m) = false := by
  have := (applyMutation_records h m hr).2
  refine ⟨this, ?_⟩
  rw [canRedo, this]
  rfl

/-- Witness for C4: clearAll on a state with one redoable snapshot. -/
theorem recording_mutation_clears_future_witness :
    (histWithFuture.future ≠ [] ∧ recordsHistory histWithFuture Mutation.clear = true) ∧
    (applyMutation histWithFuture Mutation.clear).future = [] ∧
    canRedo (applyMutation histWithFuture Mutation.clear) = false :=
  ⟨⟨by decide, rfl⟩,
    recording_mutation_clears_future histWithFuture Mutation.clear (by decide) rfl⟩

/-- C5: on an incoming request_sync message, a controller schedules (after a
10 millisecond delay) a broadcast of a full_sync message carrying its current
live scene; a non-controller client produces no effect at all. -/
theorem controller_answers_request_sync (shapes : List Shape) (sid : String)
    (now : Nat) (p : SyncPayload) (senderSid : String) (ts : Nat) :
    handleIncoming true shapes sid now ⟨.request_sync, p, senderSid, ts⟩ =
      [.scheduledSend 10 ⟨.full_sync, .shapes shapes, sid, now⟩] ∧
    handleIncoming false shapes sid now ⟨.request_sync, p, senderSid, ts⟩ = [] :=
  ⟨rfl, rfl⟩

/-- C6: two consecutive saveDrawing calls with the same scene and the same
existing record id perform at most one durable write in total: the second
call always compares the serialization against the last-saved one, skips the
write, and still returns the id as success. -/
theorem repeated_save_single_write (st : PersistRefs) (shapes : List Shape)
    (i f₁ f₂ : String) (n₁ n₂ : Option String) (t₁ t₂ : Nat) (d₁ d₂ : String) :
    (saveDrawing st shapes n₁ (some i) f₁ t₁ d₁).writes.length ≤ 1 ∧
    (saveDrawing
        ⟨(saveDrawing st shapes n₁ (some i) f₁ t₁ d₁).lastSaved,
          (saveDrawing st shapes n₁ (some i) f₁ t₁ d₁).currentDrawingId⟩
        shapes n₂ (some i) f₂ t₂ d₂).writes = [] ∧
    (saveDrawing
        ⟨(saveDrawing st shapes n₁ (some i) f₁ t₁ d₁).lastSaved,
          (saveDrawing st shapes n₁ (some i) f₁ t₁ d₁).currentDrawingId⟩
        shapes n₂ (some i) f₂ t₂ d₂).result = some i := by
  by_cases hsame : jsonStringify shapes = st.lastSaved
  · simp [saveDrawing, hsame]
  · simp [saveDrawing, hsame]

/-- C7: updating or deleting an id that is absent from the scene leaves the
scene unchanged, both through the history-recording mutators and through the
sync-receiving variants (all four are total functions: no error path). -/
theorem absent_id_mutations_noop (h : HistoryState) (u : Shape)
    (habs : ∀ s ∈ h.present, s.id ≠ u.id) :
    (updateShape h u).present = h.present ∧
    (deleteShape h u.id).present = h.present ∧
    (syncUpdateShape h u).present = h.present ∧
    (syncDeleteShape h u.id).present = h.present := by
  have hmap : (h.present.map fun s => if s.id == u.id then u else s) = h.present := by
    conv_rhs => rw [← List.map_id h.present]
    apply List.map_congr_left
    intro s hs
    simp [habs s hs]
  have hfil : (h.present.filter fun s => s.id != u.id) = h.present := by
    rw [List.filter_eq_self]
    intro s hs
    simp [habs s hs]
  exact ⟨by rw [updateShape, pushToHistory_false]; exact hmap,
    by rw [deleteShape, pushToHistory_false]; exact hfil, hmap, hfil⟩

/-- Witness for C7: a scene holding only shape a, mutated with id b. -/
theorem absent_id_mutations_noop_witness :
    (∀ s ∈ histOneShape.present, s.id ≠ (sampleShape "b").id) ∧
    (updateShape histOneShape (sampleShape "b")).present = histOneShape.present ∧
    (deleteShape histOneShape (sampleShape "b").id).present = histOneShape.present ∧
    (syncUpdateShape histOneShape (sampleShape "b")).present = histOneShape.present ∧
    (syncDeleteShape histOneShape (sampleShape "b").id).present = histOneShape.present :=
  ⟨by decide, absent_id_mutations_noop histOneShape (sampleShape "b") (by decide)⟩

/-- C8 counterexample: a tick of the display resync interval while the client
observes itself as disconnected sends nothing, even with the channel in
place, so the periodic request is not re-issued regardless of apparent
connectivity. -/
theorem resync_tick_disconnected_counterexample :
    resyncTick false true "shared" 0 = [] := rfl

/-- C8 (amended): the display resync interval has a fixed 10 second period
and, on each tick, re-issues request_sync exactly when the client currently
observes itself as connected; a disconnected tick sends nothing. -/
theorem resync_tick_only_when_connected (ch : Bool) (sid : String) (now : Nat) :
    RESYNC_INTERVAL_MS = 10000 ∧
    resyncTick true ch sid now = requestSync ch sid now ∧
    resyncTick false ch sid now = [] :=
  ⟨rfl, rfl, rfl⟩

/-- C9 counterexample: an explicit named save with an existing id whose scene
serialization equals the last-saved one performs no durable write at all, so
the supplied new name is not written; the call still returns the id. -/
theorem named_save_skip_counterexample :
    (saveDrawing ⟨some [sampleShape "a"], some "abc"⟩ [sampleShape "a"]
        (some "Renamed") (some "abc") "fresh" 7 "Drawing").writes = [] ∧
    (saveDrawing ⟨some [sampleShape "a"], some "abc"⟩ [sampleShape "a"]
        (some "Renamed") (some "abc") "fresh" 7 "Drawing").result = some "abc" := by
  constructor <;> rfl

/-- C9 (amended): an explicit named save with an existing record id updates
the record in place, with the given scene as canvas_data, a refreshed
updated_at, and (when supplied) the new name, provided the serialized scene
differs from the last-saved serialization; when they are identical the call
performs no write and just returns the id. -/
theorem named_save_update_in_place (st : PersistRefs) (shapes : List Shape)
    (name : Option String) (i f d : String) (t : Nat)
    (hchanged : jsonStringify shapes ≠ st.lastSaved) :
    saveDrawing st shapes name (some i) f t d =
      ⟨some i, [DurableWrite.update i shapes t name], jsonStringify shapes,
        st.currentDrawingId⟩ := by
  simp [saveDrawing, hchanged]

/-- Witness for C9: a first named save over the initial empty-string baseline. -/
theorem named_save_update_in_place_witness :
    jsonStringify [sampleShape "a"] ≠ (PersistRefs.mk none none).lastSaved ∧
    saveDrawing ⟨none, none⟩ [sampleShape "a"] (some "My") (some "id1") "f" 5 "D" =
      ⟨some "id1", [DurableWrite.update "id1" [sampleShape "a"] 5 (some "My")],
        jsonStringify [sampleShape "a"], none⟩ :=
  ⟨by decide,
    named_save_update_in_place ⟨none, none⟩ [sampleShape "a"] (some "My")
      "id1" "f" "D" 5 (by decide)⟩

/-- C10: every outbound broadcast wrapper, and requestSync, hands nothing to
the transport when the channel ref has not been created yet, with no failure
indication (the functions are total and just return no messages). -/
theorem broadcast_without_channel_noop (sid : String) (now : Nat) (s : Shape)
    (shapeId : String) (scene : List Shape) (t : SyncMsgType) (p : SyncPayload) :
    broadcast false sid now t p = [] ∧
    broadcastAddShape false sid now s = [] ∧
    broadcastUpdateShape false sid now s = [] ∧
    broadcastDeleteShape false sid now shapeId = [] ∧
    broadcastClear false sid now = [] ∧
    broadcastFullSync false sid now scene = [] ∧
    requestSync false sid now = [] :=
  ⟨rfl, rfl, rfl, rfl, rfl, rfl, rfl⟩

end DrawingBoard
